import Mathlib

/-!
# Verification of the ad-performance server

Shallow embedding of the ingestion and aggregation core of the repository
(`server/src/services/dataSync.ts`, `server/src/services/performance.ts`,
`server/src/routes/sync.ts`) together with proofs of the specification
claims.  JavaScript numbers are modelled as exact rationals (`ℚ`), strings
as Lean `String`, and the asynchronous retry / pagination loops as pure
functions that additionally record their observable effects (attempt
counts, sleeps, requested page numbers).
-/

namespace AdPerf

/-- Grouping level of a performance request (`"campaign" | "ad"`). -/
inductive Grouping
  | campaign
  | ad
deriving DecidableEq, Repr

/-- Sort direction (`"asc" | "desc"`). -/
inductive Direction
  | asc
  | desc
deriving DecidableEq, Repr

/-- `Campaign` row (table `Campaign`). -/
structure Campaign where
  campaign_id : String
  campaign_name : String
  status : String
  campaign_objective : String
deriving DecidableEq, Repr

/-- `Creative` row (table `Creative`). -/
structure Creative where
  creative_id : String
  creative_type : String
  thumbnail_url : String
deriving DecidableEq, Repr

/-- `Ad` row (table `Ad`). -/
structure Ad where
  ad_id : String
  campaign_id : String
  creative_id : String
  date_start : String
  date_end : String
  name : String
  description : String
  status : String
deriving DecidableEq, Repr

/-- `Insight` row (table `Insight`): one ad's raw measures for one day. -/
structure Insight where
  insight_id : String
  date : String
  ad_id : String
  campaign_id : String
  impressions : ℚ
  clicks : ℚ
  spend : ℚ
  conversions : ℚ
  reach : ℚ
  video_views : ℚ
  leads : ℚ
  conversion_value : ℚ
deriving DecidableEq, Repr

/-- An insight joined with its owning campaign, ad and the ad's creative —
the shape produced by `prisma.insight.findMany({ include: { ad: { include:
{ campaign, creative } }, campaign } })` in `getPerformance`. -/
structure JoinedInsight where
  insight : Insight
  campaign : Campaign
  ad : Ad
  creative : Creative
deriving DecidableEq, Repr

/-- The `DailyKPI` record of `performance.ts`: the ten derived metrics
(the unused `date` field of the source record is omitted — it is always
set to `""` and never read). -/
structure DailyKPI where
  cpm : ℚ
  cpr : ℚ
  ctr : ℚ
  cpc : ℚ
  view_rate : ℚ
  cpv : ℚ
  cpl : ℚ
  lead_conv_rate : ℚ
  roas : ℚ
  cpa : ℚ
deriving DecidableEq, Repr

/-- The all-zero KPI vector. -/
def DailyKPI.zero : DailyKPI :=
  { cpm := 0, cpr := 0, ctr := 0, cpc := 0, view_rate := 0,
    cpv := 0, cpl := 0, lead_conv_rate := 0, roas := 0, cpa := 0 }

/-- `calculateDailyKPIs` from `performance.ts`: each KPI is the guarded
quotient, `0` when the guard denominator is not positive. -/
def calculateDailyKPIs (impressions clicks spend conversions reach
    video_views leads conversion_value : ℚ) : DailyKPI :=
  { cpm := if impressions > 0 then spend / impressions * 1000 else 0
    cpr := if reach > 0 then spend / reach * 1000 else 0
    ctr := if impressions > 0 then clicks / impressions * 100 else 0
    cpc := if clicks > 0 then spend / clicks else 0
    view_rate := if impressions > 0 then video_views / impressions * 100 else 0
    cpv := if video_views > 0 then spend / video_views else 0
    cpl := if leads > 0 then spend / leads else 0
    lead_conv_rate := if clicks > 0 then leads / clicks * 100 else 0
    roas := if spend > 0 then conversion_value / spend else 0
    cpa := if conversions > 0 then spend / conversions else 0 }

/-- `averageDailyKPIs` from `performance.ts`: arithmetic mean of each field
(`reduce((sum, k) => sum + k.f, 0) / kpis.length`), all-zero on an empty
list. -/
def averageDailyKPIs (kpis : List DailyKPI) : DailyKPI :=
  if kpis.length = 0 then DailyKPI.zero
  else
    { cpm := kpis.foldl (fun s k => s + k.cpm) 0 / kpis.length
      cpr := kpis.foldl (fun s k => s + k.cpr) 0 / kpis.length
      ctr := kpis.foldl (fun s k => s + k.ctr) 0 / kpis.length
      cpc := kpis.foldl (fun s k => s + k.cpc) 0 / kpis.length
      view_rate := kpis.foldl (fun s k => s + k.view_rate) 0 / kpis.length
      cpv := kpis.foldl (fun s k => s + k.cpv) 0 / kpis.length
      cpl := kpis.foldl (fun s k => s + k.cpl) 0 / kpis.length
      lead_conv_rate := kpis.foldl (fun s k => s + k.lead_conv_rate) 0 / kpis.length
      roas := kpis.foldl (fun s k => s + k.roas) 0 / kpis.length
      cpa := kpis.foldl (fun s k => s + k.cpa) 0 / kpis.length }

/-- One entry of the `adKPIs` argument of `weightedAverageKPIs`:
an ad's averaged KPI vector together with its total spend (the weight). -/
structure AdKPI where
  kpis : DailyKPI
  spend : ℚ
deriving DecidableEq, Repr

/-- `weightedAverageKPIs` from `performance.ts`: spend-weighted mean of
each field; all-zero when the summed spend is `0`. -/
def weightedAverageKPIs (adKPIs : List AdKPI) : DailyKPI :=
  let totalSpend := adKPIs.foldl (fun s a => s + a.spend) 0
  if totalSpend = 0 then DailyKPI.zero
  else
    { cpm := adKPIs.foldl (fun s a => s + a.kpis.cpm * a.spend) 0 / totalSpend
      cpr := adKPIs.foldl (fun s a => s + a.kpis.cpr * a.spend) 0 / totalSpend
      ctr := adKPIs.foldl (fun s a => s + a.kpis.ctr * a.spend) 0 / totalSpend
      cpc := adKPIs.foldl (fun s a => s + a.kpis.cpc * a.spend) 0 / totalSpend
      view_rate := adKPIs.foldl (fun s a => s + a.kpis.view_rate * a.spend) 0 / totalSpend
      cpv := adKPIs.foldl (fun s a => s + a.kpis.cpv * a.spend) 0 / totalSpend
      cpl := adKPIs.foldl (fun s a => s + a.kpis.cpl * a.spend) 0 / totalSpend
      lead_conv_rate := adKPIs.foldl (fun s a => s + a.kpis.lead_conv_rate * a.spend) 0 / totalSpend
      roas := adKPIs.foldl (fun s a => s + a.kpis.roas * a.spend) 0 / totalSpend
      cpa := adKPIs.foldl (fun s a => s + a.kpis.cpa * a.spend) 0 / totalSpend }

/-! ## String helpers

`Batteries`' rational operations are `@[irreducible]`; for concrete
evaluation in witnesses we locally restore default reducibility (this
changes nothing about their mathematical meaning). -/

attribute [local semireducible] Rat.add Rat.mul Rat.inv Rat.sub

/-- Lexicographic order on character lists by code point; models both
PostgreSQL text comparison (`gte`/`lte` on `TEXT` dates) and
`localeCompare` restricted to the ASCII data of this system. -/
def charsLe : List Char → List Char → Bool
  | [], _ => true
  | _ :: _, [] => false
  | a :: as, b :: bs => a.toNat < b.toNat || (a == b && charsLe as bs)

/-- String comparison used for the `gte`/`lte` date filters and for
string-field sorting. -/
def strLe (a b : String) : Bool := charsLe a.toList b.toList

/-- Case-insensitive substring containment: Prisma's
`contains: s, mode: "insensitive"`. -/
def strContainsCI (hay needle : String) : Bool :=
  decide ((needle.toList.map Char.toLower) <:+: (hay.toList.map Char.toLower))

/-! ## Performance request -/

/-- Inclusive date range filter; `fromDate`/`toDate` model the `from`/`to`
fields (`from` is a Lean keyword). -/
structure DateRange where
  fromDate : String
  toDate : String
deriving DecidableEq, Repr

/-- The `filters` object of a performance request. -/
structure Filters where
  dateRange : DateRange
  status : Option String
  campaignObjective : String
  search : Option String
deriving DecidableEq, Repr

/-- The `pagination` object of a performance request. -/
structure Pagination where
  page : Nat
  pageSize : Nat
deriving DecidableEq, Repr

/-- The optional `sorting` object of a performance request. -/
structure Sorting where
  field : String
  direction : Direction
deriving DecidableEq, Repr

/-- The `PerformanceRequest` interface of `performance.ts`. -/
structure PerformanceRequest where
  grouping : Grouping
  filters : Filters
  pagination : Pagination
  sorting : Option Sorting
  columns : List String
deriving DecidableEq, Repr

/-- JavaScript truthiness of `filters.search`: an absent or empty search
string disables the search branch of the query. -/
def searchText? (f : Filters) : Option String :=
  match f.search with
  | some s => if s = "" then none else some s
  | none => none

/-! ## The `where` clause built by `getPerformance`

`queryFilters` is translated branch by branch.  A Prisma relation filter
on the joined row becomes a boolean condition on the corresponding
component of a `JoinedInsight`. -/

/-- The `...(filters.status && grouping === "campaign" && { status })`
spread that appears inside the `campaign` relation filters. -/
def campaignStatusOk (req : PerformanceRequest) (r : JoinedInsight) : Bool :=
  match req.filters.status, req.grouping with
  | some st, .campaign => r.campaign.status == st
  | _, _ => true

/-- The `...(filters.status && grouping === "ad" && { status })` spread
that appears inside the `ad` relation filter of the second OR branch. -/
def adStatusOk (req : PerformanceRequest) (r : JoinedInsight) : Bool :=
  match req.filters.status, req.grouping with
  | some st, .ad => r.ad.status == st
  | _, _ => true

/-- The complete `where` clause of the insight query: the date-range
condition, conjoined with either the two-branch `OR` (when search text is
given) or the simple campaign/ad structure (when it is not). -/
def insightMatches (req : PerformanceRequest) (r : JoinedInsight) : Bool :=
  strLe req.filters.dateRange.fromDate r.insight.date &&
  strLe r.insight.date req.filters.dateRange.toDate &&
  (match searchText? req.filters with
   | some s =>
     (r.campaign.campaign_objective == req.filters.campaignObjective &&
       strContainsCI r.campaign.campaign_name s &&
       campaignStatusOk req r) ||
     (r.campaign.campaign_objective == req.filters.campaignObjective &&
       campaignStatusOk req r &&
       strContainsCI r.ad.name s &&
       adStatusOk req r)
   | none =>
     r.campaign.campaign_objective == req.filters.campaignObjective &&
     campaignStatusOk req r &&
     adStatusOk req r)

/-! ## Grouping -/

/-- One element of a group's `dailyData` array. -/
structure DayRow where
  date : String
  ad_id : String
  impressions : ℚ
  clicks : ℚ
  spend : ℚ
  conversions : ℚ
  reach : ℚ
  video_views : ℚ
  leads : ℚ
  conversion_value : ℚ
deriving DecidableEq, Repr

/-- The `dailyData` entry pushed for one insight. -/
def JoinedInsight.dayRow (r : JoinedInsight) : DayRow :=
  { date := r.insight.date
    ad_id := r.insight.ad_id
    impressions := r.insight.impressions
    clicks := r.insight.clicks
    spend := r.insight.spend
    conversions := r.insight.conversions
    reach := r.insight.reach
    video_views := r.insight.video_views
    leads := r.insight.leads
    conversion_value := r.insight.conversion_value }

/-- One entry of the `grouped` map.  The four ad-level display fields are
populated only under `grouping = ad` (the source spreads them
conditionally and never reads them at campaign grouping; here they are
`""` in that case). -/
structure PerfGroup where
  key : String
  campaign_id : String
  campaign_name : String
  campaign_objective : String
  status : String
  ad_id : String
  ad_name : String
  creative_type : String
  thumbnail_url : String
  dailyData : List DayRow
deriving DecidableEq, Repr

/-- The map key: `campaign_id`, or `` `${ad_id}_${campaign_id}` ``. -/
def groupKey (grouping : Grouping) (r : JoinedInsight) : String :=
  match grouping with
  | .campaign => r.insight.campaign_id
  | .ad => r.insight.ad_id ++ "_" ++ r.insight.campaign_id

/-- The group record created on first sight of a key, display metadata
taken from that first insight. -/
def newGroup (grouping : Grouping) (r : JoinedInsight) : PerfGroup :=
  { key := groupKey grouping r
    campaign_id := r.insight.campaign_id
    campaign_name := r.campaign.campaign_name
    campaign_objective := r.campaign.campaign_objective
    status := match grouping with
      | .campaign => r.campaign.status
      | .ad => r.ad.status
    ad_id := match grouping with
      | .ad => r.insight.ad_id
      | .campaign => ""
    ad_name := match grouping with
      | .ad => r.ad.name
      | .campaign => ""
    creative_type := match grouping with
      | .ad => r.creative.creative_type
      | .campaign => ""
    thumbnail_url := match grouping with
      | .ad => r.creative.thumbnail_url
      | .campaign => ""
    dailyData := [] }

/-- Process one insight: push its day row onto the existing group with the
same key, or append a fresh group (JavaScript `Map` preserves insertion
order, so groups are kept as an ordered list). -/
def addInsight (grouping : Grouping) (gs : List PerfGroup) (r : JoinedInsight) :
    List PerfGroup :=
  if gs.any (fun g => g.key == groupKey grouping r) then
    gs.map fun g =>
      if g.key == groupKey grouping r then
        { g with dailyData := g.dailyData ++ [r.dayRow] }
      else g
  else
    gs ++ [{ newGroup grouping r with dailyData := [r.dayRow] }]

/-- The grouping loop of `getPerformance`. -/
def groupInsights (grouping : Grouping) (rows : List JoinedInsight) :
    List PerfGroup :=
  rows.foldl (addInsight grouping) []

/-! ## Per-group aggregation -/

/-- Summed raw measures of a group (`totals`). -/
structure RawTotals where
  impressions : ℚ
  clicks : ℚ
  spend : ℚ
  conversions : ℚ
  reach : ℚ
  video_views : ℚ
  leads : ℚ
  conversion_value : ℚ
deriving DecidableEq, Repr

/-- The zero accumulator of the `reduce`. -/
def RawTotals.zero : RawTotals :=
  { impressions := 0, clicks := 0, spend := 0, conversions := 0,
    reach := 0, video_views := 0, leads := 0, conversion_value := 0 }

/-- `group.dailyData.reduce(...)`: componentwise sums of the eight raw
measures. -/
def sumTotals (days : List DayRow) : RawTotals :=
  days.foldl
    (fun acc d =>
      { impressions := acc.impressions + d.impressions
        clicks := acc.clicks + d.clicks
        spend := acc.spend + d.spend
        conversions := acc.conversions + d.conversions
        reach := acc.reach + d.reach
        video_views := acc.video_views + d.video_views
        leads := acc.leads + d.leads
        conversion_value := acc.conversion_value + d.conversion_value })
    RawTotals.zero

/-- `calculateDailyKPIs` applied to one day row. -/
def calcDay (d : DayRow) : DailyKPI :=
  calculateDailyKPIs d.impressions d.clicks d.spend d.conversions d.reach
    d.video_views d.leads d.conversion_value

/-- Insert one day row into the per-ad map (`adGroups`), again as an
insertion-ordered association list. -/
def addAdDay (m : List (String × List DayRow)) (d : DayRow) :
    List (String × List DayRow) :=
  if m.any (fun p => p.1 == d.ad_id) then
    m.map fun p => if p.1 == d.ad_id then (p.1, p.2 ++ [d]) else p
  else
    m ++ [(d.ad_id, [d])]

/-- The per-ad sub-grouping of a campaign group's daily data. -/
def adGroupsOf (days : List DayRow) : List (String × List DayRow) :=
  days.foldl addAdDay []

/-- `adDays.reduce((sum, day) => sum + day.spend, 0)`. -/
def adSpendOf (days : List DayRow) : ℚ :=
  days.foldl (fun s d => s + d.spend) 0

/-- The `kpis` computed for one group: simple average of daily KPIs at ad
grouping, spend-weighted average over per-ad averaged KPIs at campaign
grouping. -/
def groupKPIs (grouping : Grouping) (days : List DayRow) : DailyKPI :=
  match grouping with
  | .ad => averageDailyKPIs (days.map calcDay)
  | .campaign =>
      weightedAverageKPIs <|
        (adGroupsOf days).map fun p =>
          { kpis := averageDailyKPIs (p.2.map calcDay)
            spend := adSpendOf p.2 }

/-! ## Projection, sorting, pagination -/

/-- A JSON value of a result row: string or number. -/
inductive Value
  | str (s : String)
  | num (q : ℚ)
deriving DecidableEq, Repr

/-- A projected result row, as an ordered association list of the fields
the `for (const col of columns)` loop assigns. -/
abbrev Row := List (String × Value)

/-- The `if/else if` chain of the projection loop, returning the value the
column contributes (or `none` for unknown columns and for ad-level
columns at campaign grouping). -/
def projectColumn (grouping : Grouping) (g : PerfGroup) (totals : RawTotals)
    (kpis : DailyKPI) (col : String) : Option Value :=
  if col == "campaign_name" then some (.str g.campaign_name)
  else if col == "campaign_objective" then some (.str g.campaign_objective)
  else if col == "status" then some (.str g.status)
  else if col == "ad_name" then
    (if grouping = .ad then some (.str g.ad_name) else none)
  else if col == "creative_type" then
    (if grouping = .ad then some (.str g.creative_type) else none)
  else if col == "thumbnail_url" then
    (if grouping = .ad then some (.str g.thumbnail_url) else none)
  else if col == "impressions" then some (.num totals.impressions)
  else if col == "clicks" then some (.num totals.clicks)
  else if col == "spend" then some (.num totals.spend)
  else if col == "conversions" then some (.num totals.conversions)
  else if col == "reach" then some (.num totals.reach)
  else if col == "video_views" then some (.num totals.video_views)
  else if col == "leads" then some (.num totals.leads)
  else if col == "conversion_value" then some (.num totals.conversion_value)
  else if col == "cpm" then some (.num kpis.cpm)
  else if col == "cpr" then some (.num kpis.cpr)
  else if col == "ctr" then some (.num kpis.ctr)
  else if col == "cpc" then some (.num kpis.cpc)
  else if col == "view_rate" then some (.num kpis.view_rate)
  else if col == "cpv" then some (.num kpis.cpv)
  else if col == "cpl" then some (.num kpis.cpl)
  else if col == "lead_conv_rate" then some (.num kpis.lead_conv_rate)
  else if col == "roas" then some (.num kpis.roas)
  else if col == "cpa" then some (.num kpis.cpa)
  else none

/-- Build one group's result row from the requested columns. -/
def projectGroup (grouping : Grouping) (columns : List String)
    (g : PerfGroup) : Row :=
  let totals := sumTotals g.dailyData
  let kpis := groupKPIs grouping g.dailyData
  columns.filterMap fun col =>
    (projectColumn grouping g totals kpis col).map fun v => (col, v)

/-- `a[sorting.field] ?? 0`. -/
def Row.valueOf (row : Row) (field : String) : Value :=
  match row.lookup field with
  | some v => v
  | none => .num 0

/-- `Number(v) || 0`: numbers pass through, everything else becomes `0`
(the string-valued fields of this system are non-numeric text, for which
JavaScript `Number` yields `NaN`, hence `0`). -/
def toNumber : Value → ℚ
  | .num q => q
  | .str _ => 0

/-- The comparator of the sort step, as the relation "`a` may come before
`b`" (comparator value `≤ 0`): `localeCompare` on two strings, numeric
comparison otherwise, reversed by `desc`. -/
def rowCompareLe (s : Sorting) (a b : Row) : Bool :=
  match a.valueOf s.field, b.valueOf s.field with
  | .str x, .str y =>
      match s.direction with
      | .asc => strLe x y
      | .desc => strLe y x
  | av, bv =>
      match s.direction with
      | .asc => decide (toNumber av ≤ toNumber bv)
      | .desc => decide (toNumber bv ≤ toNumber av)

/-- Stable insertion: `x` is placed after every `y` with `le y x`, so
elements the comparator ties keep their original relative order. -/
def insertRow {α : Type} (le : α → α → Bool) (x : α) : List α → List α
  | [] => [x]
  | y :: ys => if le y x then y :: insertRow le x ys else x :: y :: ys

/-- Stable sort by a boolean "may come before" relation; models
`Array.prototype.sort`, whose contract (with a consistent comparator) is
exactly: stable, sorted by the comparator. -/
def stableSort {α : Type} (le : α → α → Bool) (l : List α) : List α :=
  l.foldl (fun acc x => insertRow le x acc) []

/-- The sort step: identity when no sorting is requested. -/
def applySorting (sorting : Option Sorting) (rows : List Row) : List Row :=
  match sorting with
  | none => rows
  | some s => stableSort (rowCompareLe s) rows

/-- `Array.prototype.slice(start, stop)` for in-range indices. -/
def jsSlice {α : Type} (start stop : Nat) (l : List α) : List α :=
  (l.drop start).take (stop - start)

/-- The `meta` object of a performance response. -/
structure PerfMeta where
  totalRows : Nat
  page : Nat
  pageSize : Nat
  totalPages : Nat
deriving DecidableEq, Repr

/-- A performance response. -/
structure PerfResponse where
  data : List Row
  meta : PerfMeta
deriving DecidableEq, Repr

/-- Filter + group + project: the `results` array before sorting. -/
def resultsOf (req : PerformanceRequest) (db : List JoinedInsight) : List Row :=
  (groupInsights req.grouping (db.filter (insightMatches req))).map
    (projectGroup req.grouping req.columns)

/-- `results` after the sort step. -/
def sortedResultsOf (req : PerformanceRequest) (db : List JoinedInsight) :
    List Row :=
  applySorting req.sorting (resultsOf req db)

/-- The whole of `PerformanceService.getPerformance`, as a pure function
of the request and the joined insight rows of the store.
`Math.ceil(totalRows / pageSize)` is modelled by `(n + ps - 1) / ps` on
`ℕ`, which agrees with it for every positive `pageSize`. -/
def getPerformance (req : PerformanceRequest) (db : List JoinedInsight) :
    PerfResponse :=
  let sorted := sortedResultsOf req db
  let totalRows := sorted.length
  let totalPages := (totalRows + req.pagination.pageSize - 1) / req.pagination.pageSize
  let start := (req.pagination.page - 1) * req.pagination.pageSize
  { data := jsSlice start (start + req.pagination.pageSize) sorted
    meta :=
      { totalRows := totalRows
        page := req.pagination.page
        pageSize := req.pagination.pageSize
        totalPages := totalPages } }

/-! ## Retry policy (`fetchWithRetry` in `dataSync.ts`)

The asynchronous loop is embedded as a pure recursion over the attempt
index.  The operation under retry is modelled as a function from the
attempt number to the outcome the `fetch` (plus body parsing) produces on
that attempt; the run records the number of executions of the operation
and the sequence of backoff sleeps. -/

/-- Outcome of one execution of the wrapped page-fetch operation. -/
inductive FetchOutcome (α : Type) where
  | ok (payload : α)
  | status (code : Nat) (retryAfterMs : Option Nat)
  | thrown (msg : String)

/-- What a complete `fetchWithRetry` run did: its result, how many times
the operation executed, and the sleeps (durations in ms, in order). -/
structure RetryRun (α : Type) where
  result : Except String α
  attempts : Nat
  sleeps : List Nat
deriving Repr

/-- The `for (let attempt = 0; attempt < maxRetries; attempt++)` loop.
The `throw` for a non-OK status other than 429/500 and the terminal
`throw` of the 500 branch happen inside the `try`, so both fall through
to the `catch` block, which retries on every attempt but the last. -/
def fetchWithRetryAux {α : Type} (op : Nat → FetchOutcome α)
    (maxRetries retryDelay : Nat) (attempt : Nat) (sleeps : List Nat) :
    RetryRun α :=
  if attempt < maxRetries then
    match op attempt with
    | .ok a => ⟨.ok a, attempt + 1, sleeps⟩
    | .status code r =>
        if code = 429 then
          fetchWithRetryAux op maxRetries retryDelay (attempt + 1)
            (sleeps ++ [r.getD retryDelay])
        else if code = 500 then
          if attempt < maxRetries - 1 then
            fetchWithRetryAux op maxRetries retryDelay (attempt + 1)
              (sleeps ++ [retryDelay])
          else ⟨.error "Internal Server Error after retries", attempt + 1, sleeps⟩
        else if attempt = maxRetries - 1 then
          ⟨.error ("HTTP " ++ toString code), attempt + 1, sleeps⟩
        else
          fetchWithRetryAux op maxRetries retryDelay (attempt + 1)
            (sleeps ++ [retryDelay])
    | .thrown msg =>
        if attempt = maxRetries - 1 then ⟨.error msg, attempt + 1, sleeps⟩
        else
          fetchWithRetryAux op maxRetries retryDelay (attempt + 1)
            (sleeps ++ [retryDelay])
  else ⟨.error "Max retries exceeded", attempt, sleeps⟩
termination_by maxRetries - attempt
decreasing_by all_goals omega

/-- `fetchWithRetry(url, maxRetries, retryDelay)` (defaults 5 and 1000 at
the call sites). -/
def fetchWithRetry {α : Type} (op : Nat → FetchOutcome α)
    (maxRetries retryDelay : Nat) : RetryRun α :=
  fetchWithRetryAux op maxRetries retryDelay 0 []

/-! ## Paginated fetcher (`fetchAllPages` in `dataSync.ts`)

Modelled for runs in which every page fetch succeeds (the subject of the
pagination claims): the upstream collection is a function from page
number to its `PaginatedResponse`.  The model records the page numbers
requested, in request order. -/

/-- One page of an upstream collection. -/
structure PageResponse (α : Type) where
  data : List α
  page : Nat
  pageSize : Nat
  totalPages : Nat

/-- Cut a list into consecutive batches of size `c` (the
`for (i = 0; i < remainingPages.length; i += maxConcurrent)` loop).  For
`c = 0` the source loop would never terminate; the model returns a single
batch, and the pagination claims assume a positive bound. -/
def chunksOf {α : Type} (c : Nat) (l : List α) : List (List α) :=
  if l.isEmpty then []
  else if c = 0 then [l]
  else l.take c :: chunksOf c (l.drop c)
termination_by l.length
decreasing_by
  simp only [List.length_drop]
  cases l with
  | nil => simp [List.isEmpty] at *
  | cons x xs => simp; omega

/-- What a `fetchAllPages` run did: the accumulated records and the page
numbers requested, in order. -/
structure FetchPagesRun (α : Type) where
  data : List α
  requestedPages : List Nat
deriving Repr

/-- `fetchAllPages`: fetch page 1, return immediately if it is the only
page, otherwise fetch pages `2 .. totalPages` in sequential batches of
`maxConcurrent` concurrently-dispatched requests (`Promise.all` preserves
order, so each batch appends its pages' records in page order). -/
def fetchAllPages {α : Type} (pages : Nat → PageResponse α)
    (maxConcurrent : Nat) : FetchPagesRun α :=
  let firstResponse := pages 1
  let allData := firstResponse.data
  let totalPages := firstResponse.totalPages
  if totalPages = 1 then ⟨allData, [1]⟩
  else
    let remainingPages := (List.range (totalPages - 1)).map (· + 2)
    let batches := chunksOf maxConcurrent remainingPages
    ⟨allData ++ (batches.map fun b => (b.map fun p => (pages p).data).flatten).flatten,
      1 :: remainingPages⟩

/-! ## Sync trigger route (`POST /api/sync` in `routes/sync.ts`) -/

/-- Sync status values. -/
inductive SyncStatus
  | idle
  | syncing
  | completed
  | error
deriving DecidableEq, Repr

/-- Per-entity progress counters. -/
structure EntityProgress where
  fetched : Nat
  total : Nat
deriving DecidableEq, Repr

/-- The process-wide `SyncProgress` state. -/
structure SyncProgress where
  campaigns : EntityProgress
  ads : EntityProgress
  creatives : EntityProgress
  insights : EntityProgress
  status : SyncStatus
  errMsg : Option String
deriving DecidableEq, Repr

/-- What the `POST /api/sync` handler replies and does.  `syncStarted`
records whether `syncService.syncAll()` was invoked; the call is not
awaited (the acknowledgement is sent without waiting for the sync to
finish), and the handler itself never writes to the progress state, which
`progress` carries through unchanged. -/
structure TriggerOutcome where
  statusCode : Nat
  body : String
  syncStarted : Bool
  progress : SyncProgress
deriving DecidableEq, Repr

/-- The `POST /api/sync` handler: reject with 409 while a sync is
running, otherwise start one in the background and acknowledge. -/
def handleSyncTrigger (p : SyncProgress) : TriggerOutcome :=
  if p.status = .syncing then
    { statusCode := 409
      body := "Sync already in progress"
      syncStarted := false
      progress := p }
  else
    { statusCode := 200
      body := "Sync started"
      syncStarted := true
      progress := p }

/-! ## Column universe -/

/-- Every column identifier the projection loop recognises. -/
def knownColumns : List String :=
  ["campaign_name", "campaign_objective", "status", "ad_name",
   "creative_type", "thumbnail_url", "impressions", "clicks", "spend",
   "conversions", "reach", "video_views", "leads", "conversion_value",
   "cpm", "cpr", "ctr", "cpc", "view_rate", "cpv", "cpl",
   "lead_conv_rate", "roas", "cpa"]

/-- The ad-level display columns, omitted at campaign grouping. -/
def adOnlyColumns : List String :=
  ["ad_name", "creative_type", "thumbnail_url"]

/-! ## Concrete example data used by witnesses and counterexamples -/

/-- An active SALES campaign. -/
def camp1 : Campaign :=
  ⟨"c1", "Summer Sale", "active", "SALES"⟩

/-- A video creative. -/
def creat1 : Creative :=
  ⟨"cr1", "video", "https://img.example/1.png"⟩

/-- An active ad of `camp1`. -/
def ad1 : Ad :=
  ⟨"a1", "c1", "cr1", "2024-01-01", "2024-03-31", "Video Ad", "d", "active"⟩

/-- One day of measures for `ad1`. -/
def ins1 : Insight :=
  ⟨"i1", "2024-01-10", "a1", "c1", 1000, 50, 25, 5, 800, 100, 2, 45⟩

/-- The joined row for `ins1`. -/
def row1 : JoinedInsight := ⟨ins1, camp1, ad1, creat1⟩

/-- A one-row store. -/
def db1 : List JoinedInsight := [row1]

/-- A campaign whose name matches the search text "brand". -/
def campB : Campaign :=
  ⟨"c2", "Brand Blast", "active", "SALES"⟩

/-- An INACTIVE ad of `campB` whose own name does not match "brand". -/
def adB : Ad :=
  ⟨"a2", "c2", "cr1", "2024-01-01", "2024-03-31", "Plain", "d", "inactive"⟩

/-- One day of measures for `adB`. -/
def insB : Insight :=
  ⟨"i2", "2024-01-05", "a2", "c2", 10, 1, 2, 1, 5, 0, 0, 0⟩

/-- The joined row for `insB`. -/
def rowB : JoinedInsight := ⟨insB, campB, adB, creat1⟩

/-- Ad-grouping request with both an `active` status filter and search
text matching the campaign name of `campB`. -/
def reqC7 : PerformanceRequest :=
  { grouping := .ad
    filters :=
      { dateRange := ⟨"2024-01-01", "2024-01-31"⟩
        status := some "active"
        campaignObjective := "SALES"
        search := some "brand" }
    pagination := ⟨1, 10⟩
    sorting := none
    columns := ["status"] }

/-- Ad-grouping request with search text and no status filter. -/
def reqC1 : PerformanceRequest :=
  { grouping := .ad
    filters :=
      { dateRange := ⟨"2024-01-01", "2024-01-31"⟩
        status := none
        campaignObjective := "SALES"
        search := some "sale" }
    pagination := ⟨1, 10⟩
    sorting := none
    columns := ["campaign_name", "campaign_objective"] }

/-- Ad-grouping request with a status filter and no search text. -/
def reqC7w : PerformanceRequest :=
  { grouping := .ad
    filters :=
      { dateRange := ⟨"2024-01-01", "2024-01-31"⟩
        status := some "active"
        campaignObjective := "SALES"
        search := none }
    pagination := ⟨1, 10⟩
    sorting := none
    columns := ["status"] }

/-- Campaign-grouping request asking for an unknown column (`"bogus"`)
and an ad-level column (`"ad_name"`). -/
def reqC10 : PerformanceRequest :=
  { grouping := .campaign
    filters :=
      { dateRange := ⟨"2024-01-01", "2024-01-31"⟩
        status := none
        campaignObjective := "SALES"
        search := none }
    pagination := ⟨1, 10⟩
    sorting := none
    columns := ["status", "bogus", "ad_name"] }

/-- The `i`-th of 25 one-ad campaigns, with spend `i` on its single day. -/
def mkJoined (i : Nat) : JoinedInsight :=
  ⟨⟨"i" ++ toString i, "2024-01-10", "a" ++ toString i, "c" ++ toString i,
      0, 0, (i : ℚ), 0, 0, 0, 0, 0⟩,
    ⟨"c" ++ toString i, "Camp", "active", "SALES"⟩,
    ⟨"a" ++ toString i, "c" ++ toString i, "cr1", "2024-01-01", "2024-03-31",
      "Ad", "d", "active"⟩,
    creat1⟩

/-- 25 campaigns with distinct spends `0 .. 24`. -/
def db25 : List JoinedInsight := (List.range 25).map mkJoined

/-- Page 2 of 10, sorted descending by spend, over `db25`. -/
def req25 : PerformanceRequest :=
  { grouping := .campaign
    filters :=
      { dateRange := ⟨"2024-01-01", "2024-01-31"⟩
        status := none
        campaignObjective := "SALES"
        search := none }
    pagination := ⟨2, 10⟩
    sorting := some ⟨"spend", .desc⟩
    columns := ["spend"] }

/-- Two one-day ads: ad `a1` with spend 100 and per-day CPA 2, ad `a2`
with spend 300 and per-day CPA 6. -/
def exDaysC3 : List DayRow :=
  [{ date := "2024-01-10", ad_id := "a1", impressions := 0, clicks := 0,
     spend := 100, conversions := 50, reach := 0, video_views := 0,
     leads := 0, conversion_value := 0 },
   { date := "2024-01-10", ad_id := "a2", impressions := 0, clicks := 0,
     spend := 300, conversions := 50, reach := 0, video_views := 0,
     leads := 0, conversion_value := 0 }]

/-- An operation that returns HTTP 400 on every attempt. -/
def op400 : Nat → FetchOutcome Unit := fun _ => .status 400 none

/-- An operation that returns HTTP 500 on every attempt. -/
def op500 : Nat → FetchOutcome Unit := fun _ => .status 500 none

/-- A three-page upstream collection: page `p` holds `[10p, 10p + 1]`. -/
def pages3 : Nat → PageResponse Nat :=
  fun p => ⟨[10 * p, 10 * p + 1], p, 100, 3⟩

/-- A progress snapshot mid-sync. -/
def progSyncing : SyncProgress :=
  ⟨⟨40, 100⟩, ⟨0, 0⟩, ⟨7, 100⟩, ⟨0, 0⟩, .syncing, none⟩

/-! # Theorems -/

/-- C2: each of the ten KPI formulas yields exactly `0` when its guard
denominator is `0` and the stated quotient when the guard denominator is
positive, for arbitrary non-negative values of the other raw measures.
In this exact-rational model of JavaScript numbers the guarded branches
are the only ones, so no NaN or Infinity can arise. -/
theorem kpi_zero_guard (impressions clicks spend conversions reach
    video_views leads conversion_value : ℚ)
    (_h1 : 0 ≤ impressions) (_h2 : 0 ≤ clicks) (_h3 : 0 ≤ spend)
    (_h4 : 0 ≤ conversions) (_h5 : 0 ≤ reach) (_h6 : 0 ≤ video_views)
    (_h7 : 0 ≤ leads) (_h8 : 0 ≤ conversion_value) (k : DailyKPI)
    (hk : k = calculateDailyKPIs impressions clicks spend conversions reach
      video_views leads conversion_value) :
    (impressions = 0 → k.cpm = 0 ∧ k.ctr = 0 ∧ k.view_rate = 0) ∧
    (0 < impressions → k.cpm = spend / impressions * 1000 ∧
      k.ctr = clicks / impressions * 100 ∧
      k.view_rate = video_views / impressions * 100) ∧
    (reach = 0 → k.cpr = 0) ∧
    (0 < reach → k.cpr = spend / reach * 1000) ∧
    (clicks = 0 → k.cpc = 0 ∧ k.lead_conv_rate = 0) ∧
    (0 < clicks → k.cpc = spend / clicks ∧
      k.lead_conv_rate = leads / clicks * 100) ∧
    (video_views = 0 → k.cpv = 0) ∧
    (0 < video_views → k.cpv = spend / video_views) ∧
    (leads = 0 → k.cpl = 0) ∧
    (0 < leads → k.cpl = spend / leads) ∧
    (spend = 0 → k.roas = 0) ∧
    (0 < spend → k.roas = conversion_value / spend) ∧
    (conversions = 0 → k.cpa = 0) ∧
    (0 < conversions → k.cpa = spend / conversions) := by
  subst hk
  refine ⟨fun h => ?_, fun h => ?_, fun h => ?_, fun h => ?_, fun h => ?_,
    fun h => ?_, fun h => ?_, fun h => ?_, fun h => ?_, fun h => ?_,
    fun h => ?_, fun h => ?_, fun h => ?_, fun h => ?_⟩ <;>
  simp [calculateDailyKPIs, h]

/-- Witness for C2, at measures `(2, 1, 4, 2, 1, 0, 0, 8)`: the CPV is 0
because `video_views = 0`. -/
theorem kpi_zero_guard_witness :
    (0:ℚ) ≤ 2 ∧ (calculateDailyKPIs 2 1 4 2 1 0 0 8).cpv = 0 :=
  ⟨by norm_num,
    (kpi_zero_guard 2 1 4 2 1 0 0 8 (by norm_num) (by norm_num) (by norm_num)
      (by norm_num) (by norm_num) (by norm_num) (by norm_num) (by norm_num)
      _ rfl).2.2.2.2.2.2.1 rfl⟩

/-- C9: the sync-trigger handler replies 409 without starting a sync and
without touching the progress state when the status is `syncing`, and
otherwise starts the sync in the background (not awaited) and
acknowledges with 200. -/
theorem sync_trigger_conflict (p : SyncProgress) :
    (p.status = .syncing →
      handleSyncTrigger p =
        ⟨409, "Sync already in progress", false, p⟩) ∧
    (p.status ≠ .syncing →
      (handleSyncTrigger p).statusCode = 200 ∧
      (handleSyncTrigger p).syncStarted = true ∧
      (handleSyncTrigger p).body = "Sync started") := by
  constructor
  · intro h
    simp [handleSyncTrigger, h]
  · intro h
    simp [handleSyncTrigger, h]

/-- Witness for C9 at a mid-sync snapshot with nonzero counters. -/
theorem sync_trigger_conflict_witness :
    progSyncing.status = .syncing ∧
    handleSyncTrigger progSyncing =
      ⟨409, "Sync already in progress", false, progSyncing⟩ :=
  ⟨rfl, (sync_trigger_conflict progSyncing).1 rfl⟩

/-- Outcomes that send the loop through a "sleep `retryDelay`, retry on
every attempt but the last" path: a 500, any other non-429 non-success
status (whose `throw` is caught by the `catch`), or a thrown exception. -/
def persistentFailure {α : Type} (o : FetchOutcome α) : Prop :=
  match o with
  | .ok _ => False
  | .status c _ => c ≠ 429
  | .thrown _ => True

/-- Under a persistently failing (non-429) operation, the loop runs its
full budget: `mr` attempts, one base-delay sleep between consecutive
attempts, and a final error. -/
theorem fetchWithRetryAux_persistent {α : Type} (op : Nat → FetchOutcome α)
    (mr rd : Nat) (h : ∀ n, persistentFailure (op n)) :
    ∀ fuel attempt sleeps, mr - attempt = fuel → attempt < mr →
      (fetchWithRetryAux op mr rd attempt sleeps).attempts = mr ∧
      (fetchWithRetryAux op mr rd attempt sleeps).sleeps
        = sleeps ++ List.replicate (mr - 1 - attempt) rd ∧
      ∃ msg, (fetchWithRetryAux op mr rd attempt sleeps).result = .error msg := by
  intro fuel
  induction fuel with
  | zero =>
    intro attempt sleeps hf hlt
    omega
  | succ n ih =>
    intro attempt sleeps hf hlt
    have hspec := h attempt
    rw [fetchWithRetryAux, if_pos hlt]
    cases ho : op attempt with
    | ok a => rw [ho] at hspec; exact absurd hspec not_false
    | status c r =>
      rw [ho] at hspec
      have hc429 : c ≠ 429 := hspec
      dsimp only
      rw [if_neg hc429]
      by_cases hc500 : c = 500
      · rw [if_pos hc500]
        by_cases hlast : attempt < mr - 1
        · rw [if_pos hlast]
          obtain ⟨ha, hs, hm⟩ := ih (attempt + 1) (sleeps ++ [rd])
            (by omega) (by omega)
          refine ⟨ha, ?_, hm⟩
          rw [hs, List.append_assoc]
          congr 1
          have : mr - 1 - attempt = (mr - 1 - (attempt + 1)) + 1 := by omega
          rw [this, List.replicate_succ]
          rfl
        · rw [if_neg hlast]
          refine ⟨by dsimp only; omega, ?_, ⟨_, rfl⟩⟩
          have : mr - 1 - attempt = 0 := by omega
          simp [this]
      · rw [if_neg hc500]
        by_cases hlast : attempt = mr - 1
        · rw [if_pos hlast]
          refine ⟨by dsimp only; omega, ?_, ⟨_, rfl⟩⟩
          have : mr - 1 - attempt = 0 := by omega
          simp [this]
        · rw [if_neg hlast]
          obtain ⟨ha, hs, hm⟩ := ih (attempt + 1) (sleeps ++ [rd])
            (by omega) (by omega)
          refine ⟨ha, ?_, hm⟩
          rw [hs, List.append_assoc]
          congr 1
          have : mr - 1 - attempt = (mr - 1 - (attempt + 1)) + 1 := by omega
          rw [this, List.replicate_succ]
          rfl
    | thrown msg =>
      dsimp only
      by_cases hlast : attempt = mr - 1
      · rw [if_pos hlast]
        refine ⟨by dsimp only; omega, ?_, ⟨_, rfl⟩⟩
        have : mr - 1 - attempt = 0 := by omega
        simp [this]
      · rw [if_neg hlast]
        obtain ⟨ha, hs, hm⟩ := ih (attempt + 1) (sleeps ++ [rd])
          (by omega) (by omega)
        refine ⟨ha, ?_, hm⟩
        rw [hs, List.append_assoc]
        congr 1
        have : mr - 1 - attempt = (mr - 1 - (attempt + 1)) + 1 := by omega
        rw [this, List.replicate_succ]
        rfl

/-- The loop never executes the operation more often than the attempt
budget, whatever the outcomes. -/
theorem fetchWithRetryAux_attempts_le {α : Type} (op : Nat → FetchOutcome α)
    (mr rd : Nat) :
    ∀ fuel attempt sleeps, mr - attempt = fuel → attempt ≤ mr →
      (fetchWithRetryAux op mr rd attempt sleeps).attempts ≤ mr := by
  intro fuel
  induction fuel with
  | zero =>
    intro attempt sleeps hf hle
    have : ¬ attempt < mr := by omega
    rw [fetchWithRetryAux, if_neg this]
    dsimp only
    omega
  | succ n ih =>
    intro attempt sleeps hf hle
    have hlt : attempt < mr := by omega
    rw [fetchWithRetryAux, if_pos hlt]
    cases ho : op attempt with
    | ok a => simpa using hlt
    | status c r =>
      dsimp only
      by_cases hc429 : c = 429
      · rw [if_pos hc429]
        exact ih (attempt + 1) _ (by omega) (by omega)
      · rw [if_neg hc429]
        by_cases hc500 : c = 500
        · rw [if_pos hc500]
          by_cases hlast : attempt < mr - 1
          · rw [if_pos hlast]
            exact ih (attempt + 1) _ (by omega) (by omega)
          · rw [if_neg hlast]
            simpa using hlt
        · rw [if_neg hc500]
          by_cases hlast : attempt = mr - 1
          · rw [if_pos hlast]
            simpa using hlt
          · rw [if_neg hlast]
            exact ih (attempt + 1) _ (by omega) (by omega)
    | thrown msg =>
      dsimp only
      by_cases hlast : attempt = mr - 1
      · rw [if_pos hlast]
        simpa using hlt
      · rw [if_neg hlast]
        exact ih (attempt + 1) _ (by omega) (by omega)

/-- C5: a persistently 500-returning operation is executed exactly
`maxRetries` times before the wrapper raises, and no operation is ever
executed more than `maxRetries` times. -/
theorem retry_exhaustion {α : Type} (op : Nat → FetchOutcome α)
    (mr rd : Nat) (h500 : ∀ n, ∃ r, op n = .status 500 r) :
    (fetchWithRetry op mr rd).attempts = mr ∧
    (∃ msg, (fetchWithRetry op mr rd).result = .error msg) ∧
    (∀ op' : Nat → FetchOutcome α,
      (fetchWithRetry op' mr rd).attempts ≤ mr) := by
  refine ⟨?_, ?_, fun op' =>
    fetchWithRetryAux_attempts_le op' mr rd mr 0 [] (by omega) (by omega)⟩
  all_goals
    rcases Nat.eq_zero_or_pos mr with hmr | hmr
  · subst hmr
    rw [fetchWithRetry, fetchWithRetryAux]
    simp
  · exact (fetchWithRetryAux_persistent op mr rd
      (fun n => by obtain ⟨r, hr⟩ := h500 n; rw [hr]; exact (by omega : (500:Nat) ≠ 429))
      mr 0 [] (by omega) hmr).1
  · subst hmr
    rw [fetchWithRetry, fetchWithRetryAux]
    simp
  · exact (fetchWithRetryAux_persistent op mr rd
      (fun n => by obtain ⟨r, hr⟩ := h500 n; rw [hr]; exact (by omega : (500:Nat) ≠ 429))
      mr 0 [] (by omega) hmr).2.2

/-- Witness for C5: five attempts for the always-500 operation with the
default budget of 5. -/
theorem retry_exhaustion_witness :
    (∀ n, ∃ r, op500 n = FetchOutcome.status 500 r) ∧
    (fetchWithRetry op500 5 1000).attempts = 5 :=
  ⟨fun _ => ⟨none, rfl⟩,
    (retry_exhaustion op500 5 1000 (fun _ => ⟨none, rfl⟩)).1⟩

/-- Counterexample to C4 as stated: with `maxRetries = 2 > 1` and a
response of status 400 on every attempt, the wrapper performs 2 attempts
(not 1) with a backoff sleep between them — the `throw` for a non-OK
status is raised inside the `try`, so the generic `catch` retries it. -/
theorem nonretryable_counterexample :
    (fetchWithRetry op400 2 1000).attempts = 2 ∧
    (fetchWithRetry op400 2 1000).sleeps = [1000] ∧
    (fetchWithRetry op400 2 1000).result = .error "HTTP 400" := by
  rw [fetchWithRetry, fetchWithRetryAux]
  norm_num [op400]
  rw [fetchWithRetryAux]
  norm_num [op400]
  rfl

/-- C4 amended: a persistent non-success status other than 429 and 500 is
treated by the `catch` exactly like a network failure — the wrapper
sleeps the base delay and retries on every attempt but the last, and only
the last attempt propagates the error; it therefore performs exactly
`maxRetries` attempts with `maxRetries - 1` sleeps, not a single
attempt. -/
theorem nonretryable_retried {α : Type} (op : Nat → FetchOutcome α)
    (mr rd : Nat) (hmr : 1 ≤ mr)
    (h : ∀ n, ∃ c r, op n = .status c r ∧ c ≠ 429 ∧ c ≠ 500) :
    (fetchWithRetry op mr rd).attempts = mr ∧
    (fetchWithRetry op mr rd).sleeps = List.replicate (mr - 1) rd ∧
    ∃ msg, (fetchWithRetry op mr rd).result = .error msg := by
  have hp : ∀ n, persistentFailure (op n) := fun n => by
    obtain ⟨c, r, hr, hc429, _⟩ := h n
    rw [hr]
    exact hc429
  have := fetchWithRetryAux_persistent op mr rd hp mr 0 [] (by omega) (by omega)
  simpa [fetchWithRetry] using this

/-- Witness for the amended C4: always-400 with a budget of 3 gives 3
attempts and 2 base-delay sleeps. -/
theorem nonretryable_retried_witness :
    (1:Nat) ≤ 3 ∧
    (fetchWithRetry op400 3 1000).attempts = 3 ∧
    (fetchWithRetry op400 3 1000).sleeps = List.replicate 2 1000 :=
  ⟨by norm_num,
    (nonretryable_retried op400 3 1000 (by norm_num)
      (fun _ => ⟨400, none, rfl, by norm_num, by norm_num⟩)).1,
    (nonretryable_retried op400 3 1000 (by norm_num)
      (fun _ => ⟨400, none, rfl, by norm_num, by norm_num⟩)).2.1⟩

end AdPerf

namespace AdPerf

attribute [local semireducible] Rat.add Rat.mul Rat.inv Rat.sub

/-- A `reduce((sum, x) => sum + f(x), 0)`-style fold is the sum of the
mapped list. -/
theorem foldl_add_map {α : Type} (f : α → ℚ) (l : List α) (a : ℚ) :
    l.foldl (fun s x => s + f x) a = a + (l.map f).sum := by
  induction l generalizing a with
  | nil => simp
  | cons x xs ih => simp [ih, add_assoc]

/-- C3: at campaign grouping, the group KPI vector is the spend-weighted
mean of the per-ad KPI vectors (each the arithmetic mean of that ad's
per-day vectors, weighted by that ad's total spend): every field equals
`Σ(field × ad_spend) / Σ(ad_spend)`, and is `0` when the summed spend is
`0`. -/
theorem campaign_weighted_average (days : List DayRow) (pairs : List AdKPI)
    (hpairs : pairs = (adGroupsOf days).map fun p =>
      ⟨averageDailyKPIs (p.2.map calcDay), adSpendOf p.2⟩)
    (W : ℚ) (hW : W = (pairs.map (fun a => a.spend)).sum) :
    groupKPIs .campaign days = weightedAverageKPIs pairs ∧
    (W = 0 → groupKPIs .campaign days = DailyKPI.zero) ∧
    (W ≠ 0 →
      (groupKPIs .campaign days).cpm
        = (pairs.map fun a => a.kpis.cpm * a.spend).sum / W ∧
      (groupKPIs .campaign days).cpr
        = (pairs.map fun a => a.kpis.cpr * a.spend).sum / W ∧
      (groupKPIs .campaign days).ctr
        = (pairs.map fun a => a.kpis.ctr * a.spend).sum / W ∧
      (groupKPIs .campaign days).cpc
        = (pairs.map fun a => a.kpis.cpc * a.spend).sum / W ∧
      (groupKPIs .campaign days).view_rate
        = (pairs.map fun a => a.kpis.view_rate * a.spend).sum / W ∧
      (groupKPIs .campaign days).cpv
        = (pairs.map fun a => a.kpis.cpv * a.spend).sum / W ∧
      (groupKPIs .campaign days).cpl
        = (pairs.map fun a => a.kpis.cpl * a.spend).sum / W ∧
      (groupKPIs .campaign days).lead_conv_rate
        = (pairs.map fun a => a.kpis.lead_conv_rate * a.spend).sum / W ∧
      (groupKPIs .campaign days).roas
        = (pairs.map fun a => a.kpis.roas * a.spend).sum / W ∧
      (groupKPIs .campaign days).cpa
        = (pairs.map fun a => a.kpis.cpa * a.spend).sum / W) := by
  have hgk : groupKPIs .campaign days = weightedAverageKPIs pairs := by
    rw [hpairs]; rfl
  refine ⟨hgk, fun h0 => ?_, fun hne => ?_⟩
  · rw [hgk, weightedAverageKPIs]
    simp only [foldl_add_map, zero_add]
    rw [← hW, if_pos h0]
  · rw [hgk, weightedAverageKPIs]
    simp only [foldl_add_map, zero_add]
    rw [← hW, if_neg hne]
    exact ⟨rfl, rfl, rfl, rfl, rfl, rfl, rfl, rfl, rfl, rfl⟩

/-- Witness for C3: ads with spends `[100, 300]` and per-ad CPA `[2, 6]`
give campaign CPA `(2·100 + 6·300) / 400 = 5`. -/
theorem campaign_weighted_average_witness :
    ((((adGroupsOf exDaysC3).map fun p =>
        (⟨averageDailyKPIs (p.2.map calcDay), adSpendOf p.2⟩ : AdKPI)).map
          (fun a => a.spend)).sum ≠ 0) ∧
    (groupKPIs .campaign exDaysC3).cpa = 5 := by
  have h := campaign_weighted_average exDaysC3 _ rfl _ rfl
  have hne : (((adGroupsOf exDaysC3).map fun p =>
      (⟨averageDailyKPIs (p.2.map calcDay), adSpendOf p.2⟩ : AdKPI)).map
        (fun a => a.spend)).sum ≠ 0 := by decide
  refine ⟨hne, ?_⟩
  rw [(h.2.2 hne).2.2.2.2.2.2.2.2.2]
  decide

end AdPerf

namespace AdPerf

/-- Concatenating the batches restores the batched list. -/
theorem chunksOf_flatten {α : Type} (c : Nat) (l : List α) :
    (chunksOf c l).flatten = l := by
  rw [chunksOf]
  by_cases hl : l.isEmpty
  · rw [if_pos hl]
    simp [List.isEmpty_iff.mp hl]
  · rw [if_neg hl]
    by_cases hc : c = 0
    · rw [if_pos hc]
      simp
    · rw [if_neg hc]
      simp only [List.flatten_cons]
      rw [chunksOf_flatten c (l.drop c)]
      exact List.take_append_drop c l
termination_by l.length
decreasing_by
  simp only [List.length_drop]
  have hl' : l ≠ [] := by simpa using hl
  have hpos : 0 < l.length := List.length_pos.mpr hl'
  omega

/-- Flattening batch-wise flattened pages is flattening the pages of the
concatenated batches. -/
theorem flatten_map_flatten {α β : Type} (f : α → List β)
    (ll : List (List α)) :
    (ll.map fun b => (b.map f).flatten).flatten = (ll.flatten.map f).flatten := by
  induction ll with
  | nil => simp
  | cons b rest ih => simp [ih]

/-- C6: when every page fetch succeeds and page 1 reports `totalPages = k`,
the fetcher requests exactly the pages `1 .. k`, each exactly once, and
returns the concatenation of all `k` pages' records in page order — so
each upstream record occurs in the result exactly as often as in the
pages, i.e. exactly once if the pages are duplicate-free; with `k = 1` it
returns directly after the first page. -/
theorem pagination_completeness {α : Type} [DecidableEq α]
    (pages : Nat → PageResponse α) (maxConcurrent k : Nat)
    (_hk : 1 ≤ k) (_hc : 0 < maxConcurrent)
    (htp : (pages 1).totalPages = k) :
    (fetchAllPages pages maxConcurrent).requestedPages
      = (List.range k).map (· + 1) ∧
    (fetchAllPages pages maxConcurrent).requestedPages.Nodup ∧
    (fetchAllPages pages maxConcurrent).requestedPages.length = k ∧
    (fetchAllPages pages maxConcurrent).data
      = ((List.range k).map fun i => (pages (i + 1)).data).flatten ∧
    (∀ x, ((fetchAllPages pages maxConcurrent).data).count x
      = ((List.range k).map fun i => ((pages (i + 1)).data).count x).sum) ∧
    (k = 1 → fetchAllPages pages maxConcurrent = ⟨(pages 1).data, [1]⟩) := by
  obtain ⟨k', rfl⟩ : ∃ k', k = k' + 1 := ⟨k - 1, by omega⟩
  by_cases hk1 : k' = 0
  · subst hk1
    rw [fetchAllPages, htp, if_pos rfl]
    exact ⟨rfl, by simp, by simp, by simp [List.range_succ],
      by simp [List.range_succ], fun _ => rfl⟩
  · have hne : (pages 1).totalPages ≠ 1 := by rw [htp]; omega
    rw [fetchAllPages, if_neg hne, htp]
    dsimp only
    simp only [Nat.add_sub_cancel]
    refine ⟨?_, ?_, ?_, ?_, ?_, fun h => absurd h (by omega)⟩
    · rw [List.range_succ_eq_map]
      simp [List.map_map, Function.comp]
    · refine List.nodup_cons.mpr ⟨?_, (List.nodup_range k').map fun a b hab => by omega⟩
      simp only [List.mem_map, List.mem_range]
      rintro ⟨x, -, hx⟩
      omega
    · simp
    · rw [flatten_map_flatten, chunksOf_flatten, List.range_succ_eq_map]
      simp only [List.map_map, List.map_cons, List.flatten_cons]
      rfl
    · intro x
      rw [flatten_map_flatten, chunksOf_flatten, List.range_succ_eq_map]
      simp only [List.map_map, List.map_cons, List.flatten_cons, List.sum_cons,
        List.count_append, List.count_flatten]
      rfl

/-- Witness for C6: a three-page collection fetched with batch size 2
requests pages `[1, 2, 3]` and concatenates all three pages. -/
theorem pagination_completeness_witness :
    (pages3 1).totalPages = 3 ∧
    (fetchAllPages pages3 2).requestedPages = [1, 2, 3] := by
  have h := pagination_completeness pages3 2 3 (by norm_num) (by norm_num) rfl
  exact ⟨rfl, by rw [h.1]; rfl⟩

end AdPerf

namespace AdPerf

attribute [local semireducible] Rat.add Rat.mul Rat.inv Rat.sub

/-! ## Structural lemmas about the aggregation pipeline -/

/-- Stable insertion is a permutation of consing. -/
theorem insertRow_perm {α : Type} (le : α → α → Bool) (x : α) (l : List α) :
    (insertRow le x l).Perm (x :: l) := by
  induction l with
  | nil => exact List.Perm.refl _
  | cons y ys ih =>
    rw [insertRow]
    by_cases h : le y x
    · rw [if_pos h]
      exact (ih.cons y).trans (List.Perm.swap x y ys)
    · rw [if_neg h]

/-- Membership in a stable insertion. -/
theorem mem_insertRow {α : Type} (le : α → α → Bool) (x : α) (l : List α)
    (y : α) : y ∈ insertRow le x l ↔ y = x ∨ y ∈ l := by
  rw [(insertRow_perm le x l).mem_iff, List.mem_cons]

/-- The sort step permutes its input. -/
theorem stableSort_perm {α : Type} (le : α → α → Bool) (l : List α) :
    (stableSort le l).Perm l := by
  suffices h : ∀ (rem acc : List α),
      (rem.foldl (fun acc x => insertRow le x acc) acc).Perm (acc ++ rem) by
    simpa using h l []
  intro rem
  induction rem with
  | nil => simp
  | cons x rs ih =>
    intro acc
    exact (ih (insertRow le x acc)).trans
      (((insertRow_perm le x acc).append_right rs).trans List.perm_middle.symm)

/-- Sorting (or leaving unsorted) preserves membership. -/
theorem mem_applySorting (sorting : Option Sorting) (rows : List Row)
    (row : Row) : row ∈ applySorting sorting rows ↔ row ∈ rows := by
  cases sorting with
  | none => rfl
  | some s => exact (stableSort_perm (rowCompareLe s) rows).mem_iff

/-- Sorting preserves length. -/
theorem length_applySorting (sorting : Option Sorting) (rows : List Row) :
    (applySorting sorting rows).length = rows.length := by
  cases sorting with
  | none => rfl
  | some s => exact (stableSort_perm (rowCompareLe s) rows).length_eq

/-- Every row of a response page is the projection of some group of the
filtered insights. -/
theorem mem_data_exists_group (req : PerformanceRequest)
    (db : List JoinedInsight) :
    ∀ row ∈ (getPerformance req db).data,
      ∃ g ∈ groupInsights req.grouping (db.filter (insightMatches req)),
        row = projectGroup req.grouping req.columns g := by
  intro row hrow
  have h1 : row ∈ sortedResultsOf req db := by
    have h := hrow
    rw [getPerformance] at h
    exact List.mem_of_mem_drop (List.mem_of_mem_take h)
  have h2 : row ∈ resultsOf req db :=
    (mem_applySorting req.sorting (resultsOf req db) row).mp h1
  rw [resultsOf] at h2
  obtain ⟨g, hg, hrow'⟩ := List.mem_map.mp h2
  exact ⟨g, hg, hrow'.symm⟩

/-- Fold invariant of the grouping loop: a property preserved by pushing
a day row and satisfied by every freshly created group holds of every
group produced. -/
theorem groupInsights_inv (grouping : Grouping) (P : PerfGroup → Prop)
    (hmod : ∀ g r, P g →
      P { g with dailyData := g.dailyData ++ [JoinedInsight.dayRow r] })
    (rows : List JoinedInsight)
    (hnew : ∀ r ∈ rows,
      P { newGroup grouping r with dailyData := [JoinedInsight.dayRow r] }) :
    ∀ g ∈ groupInsights grouping rows, P g := by
  suffices h : ∀ (rem : List JoinedInsight) (acc : List PerfGroup),
      (∀ g ∈ acc, P g) →
      (∀ r ∈ rem,
        P { newGroup grouping r with dailyData := [JoinedInsight.dayRow r] }) →
      ∀ g ∈ rem.foldl (addInsight grouping) acc, P g by
    exact h rows [] (by simp) hnew
  intro rem
  induction rem with
  | nil =>
    intro acc hacc _ g hg
    exact hacc g hg
  | cons r rs ih =>
    intro acc hacc hnew' g hg
    refine ih (addInsight grouping acc r) ?_
      (fun r' hr' => hnew' r' (List.mem_cons_of_mem _ hr')) g hg
    intro g' hg'
    rw [addInsight] at hg'
    by_cases hex : acc.any (fun g0 => g0.key == groupKey grouping r) = true
    · rw [if_pos hex] at hg'
      obtain ⟨g0, hg0, rfl⟩ := List.mem_map.mp hg'
      by_cases hk : (g0.key == groupKey grouping r) = true
      · rw [if_pos hk]
        exact hmod g0 r (hacc g0 hg0)
      · rw [if_neg hk]
        exact hacc g0 hg0
    · rw [if_neg hex] at hg'
      rcases List.mem_append.mp hg' with h | h
      · exact hacc g' h
      · rw [List.mem_singleton] at h
        subst h
        exact hnew' r (List.mem_cons_self r rs)

end AdPerf

namespace AdPerf

attribute [local semireducible] Rat.add Rat.mul Rat.inv Rat.sub

/-- Every insight row passing the `where` clause belongs to a campaign
with the requested objective — both OR branches of the search query and
the plain query all conjoin the objective condition. -/
theorem insightMatches_objective (req : PerformanceRequest)
    (r : JoinedInsight) (h : insightMatches req r = true) :
    r.campaign.campaign_objective = req.filters.campaignObjective := by
  rw [insightMatches] at h
  cases hsearch : searchText? req.filters with
  | none =>
    rw [hsearch] at h
    simp only [Bool.and_eq_true, beq_iff_eq] at h
    obtain ⟨-, ⟨hobj, -⟩, -⟩ := h
    exact hobj
  | some s =>
    rw [hsearch] at h
    simp only [Bool.and_eq_true, Bool.or_eq_true, beq_iff_eq] at h
    obtain ⟨-, hbr⟩ := h
    rcases hbr with ⟨⟨hobj, -⟩, -⟩ | ⟨⟨⟨hobj, -⟩, -⟩, -⟩ <;> exact hobj

/-- Status guarantees of the `where` clause, by grouping and search mode:
without search, or at campaign grouping, the grouping-level status equals
the requested one; with search at ad grouping, a selected row either has
the requested ad status or merely matches the search on its campaign
name. -/
theorem insightMatches_status (req : PerformanceRequest) (r : JoinedInsight)
    (st : String) (hst : req.filters.status = some st)
    (h : insightMatches req r = true) :
    (searchText? req.filters = none ∨ req.grouping = .campaign →
      (match req.grouping with
        | .campaign => r.campaign.status
        | .ad => r.ad.status) = st) ∧
    (∀ s, searchText? req.filters = some s → req.grouping = .ad →
      r.ad.status = st ∨ strContainsCI r.campaign.campaign_name s = true) := by
  rw [insightMatches] at h
  cases hsearch : searchText? req.filters with
  | none =>
    rw [hsearch] at h
    simp only [Bool.and_eq_true] at h
    obtain ⟨-, ⟨-, hcs⟩, has⟩ := h
    constructor
    · intro _
      split
      · next hg =>
        simp only [campaignStatusOk, hst, hg, beq_iff_eq] at hcs
        exact hcs
      · next hg =>
        simp only [adStatusOk, hst, hg, beq_iff_eq] at has
        exact has
    · intro s hs _
      exact Option.noConfusion hs
  | some s =>
    rw [hsearch] at h
    simp only [Bool.and_eq_true, Bool.or_eq_true] at h
    obtain ⟨-, hbr⟩ := h
    constructor
    · rintro (hn | hg)
      · exact Option.noConfusion hn
      · rcases hbr with ⟨⟨-, -⟩, hcs⟩ | ⟨⟨⟨-, hcs⟩, -⟩, -⟩ <;>
        · simp only [campaignStatusOk, hst, hg, beq_iff_eq] at hcs
          rw [hg]
          exact hcs
    · intro s' hs' hg
      injection hs' with hss
      subst hss
      rcases hbr with ⟨⟨-, hname⟩, -⟩ | ⟨-, has⟩
      · exact Or.inr hname
      · left
        simp only [adStatusOk, hst, hg, beq_iff_eq] at has
        exact has

end AdPerf

namespace AdPerf

attribute [local semireducible] Rat.add Rat.mul Rat.inv Rat.sub

/-- C1: when the request carries search text, every row of the returned
report — at either grouping — is the projection of a group whose campaign
objective equals the requested `campaignObjective`: the search never
bypasses the objective filter. -/
theorem search_objective_coupling (req : PerformanceRequest)
    (db : List JoinedInsight) (s : String)
    (_hs : req.filters.search = some s) :
    ∀ row ∈ (getPerformance req db).data,
      ∃ g ∈ groupInsights req.grouping (db.filter (insightMatches req)),
        g.campaign_objective = req.filters.campaignObjective ∧
        row = projectGroup req.grouping req.columns g := by
  intro row hrow
  obtain ⟨g, hg, hproj⟩ := mem_data_exists_group req db row hrow
  refine ⟨g, hg, ?_, hproj⟩
  refine groupInsights_inv req.grouping
    (fun g => g.campaign_objective = req.filters.campaignObjective)
    (fun g r hP => hP) (db.filter (insightMatches req)) ?_ g hg
  intro r hr
  have hm : insightMatches req r = true := (List.mem_filter.mp hr).2
  exact insightMatches_objective req r hm

/-- Witness for C1: a search for "sale" at ad grouping returns exactly the
`camp1` group, whose objective is the requested `SALES`. -/
theorem search_objective_coupling_witness :
    reqC1.filters.search = some "sale" ∧
    (∀ row ∈ (getPerformance reqC1 db1).data,
      ∃ g ∈ groupInsights reqC1.grouping (db1.filter (insightMatches reqC1)),
        g.campaign_objective = reqC1.filters.campaignObjective ∧
        row = projectGroup reqC1.grouping reqC1.columns g) ∧
    (getPerformance reqC1 db1).data
      = [[("campaign_name", Value.str "Summer Sale"),
          ("campaign_objective", Value.str "SALES")]] :=
  ⟨rfl, search_objective_coupling reqC1 db1 "sale" rfl, by decide⟩

/-- Counterexample to C7 as stated: at ad grouping with
`status = "active"` and search text `"brand"` matching only the campaign
name, the single returned row has status `"inactive"` — the first OR
branch of the search query carries no ad-status condition. -/
theorem status_filter_counterexample :
    reqC7.grouping = .ad ∧
    reqC7.filters.status = some "active" ∧
    reqC7.filters.search = some "brand" ∧
    (getPerformance reqC7 [rowB]).data
      = [[("status", Value.str "inactive")]] := by
  refine ⟨rfl, rfl, rfl, by decide⟩

/-- C7 amended: with a status filter, every returned row is the
projection of a group with the requested grouping-level status whenever
no search text is given or the grouping is campaign; with search text at
ad grouping, a row's group is only guaranteed to have the requested ad
status or a campaign name containing the search text (rows matching via
the campaign name bypass the ad-status condition). -/
theorem status_filter_amended (req : PerformanceRequest)
    (db : List JoinedInsight) (st : String)
    (hst : req.filters.status = some st) :
    (searchText? req.filters = none ∨ req.grouping = .campaign →
      ∀ row ∈ (getPerformance req db).data,
        ∃ g ∈ groupInsights req.grouping (db.filter (insightMatches req)),
          g.status = st ∧ row = projectGroup req.grouping req.columns g) ∧
    (∀ s, searchText? req.filters = some s → req.grouping = .ad →
      ∀ row ∈ (getPerformance req db).data,
        ∃ g ∈ groupInsights req.grouping (db.filter (insightMatches req)),
          (g.status = st ∨ strContainsCI g.campaign_name s = true) ∧
          row = projectGroup req.grouping req.columns g) := by
  constructor
  · intro hmode row hrow
    obtain ⟨g, hg, hproj⟩ := mem_data_exists_group req db row hrow
    refine ⟨g, hg, ?_, hproj⟩
    refine groupInsights_inv req.grouping (fun g => g.status = st)
      (fun g r hP => hP) (db.filter (insightMatches req)) ?_ g hg
    intro r hr
    have hm : insightMatches req r = true := (List.mem_filter.mp hr).2
    have := (insightMatches_status req r st hst hm).1 hmode
    exact this
  · intro s hs hg' row hrow
    obtain ⟨g, hg, hproj⟩ := mem_data_exists_group req db row hrow
    refine ⟨g, hg, ?_, hproj⟩
    refine groupInsights_inv req.grouping
      (fun g => g.status = st ∨ strContainsCI g.campaign_name s = true)
      (fun g r hP => hP) (db.filter (insightMatches req)) ?_ g hg
    intro r hr
    have hm : insightMatches req r = true := (List.mem_filter.mp hr).2
    have h2 := (insightMatches_status req r st hst hm).2 s hs hg'
    rcases h2 with h2 | h2
    · left
      show ({ newGroup req.grouping r with
        dailyData := [JoinedInsight.dayRow r] }).status = st
      rw [hg']
      exact h2
    · right
      exact h2

/-- Witness for the amended C7: without search text, at ad grouping with
`status = "active"`, the returned row's group has status `"active"`. -/
theorem status_filter_amended_witness :
    reqC7w.filters.status = some "active" ∧
    searchText? reqC7w.filters = none ∧
    (∀ row ∈ (getPerformance reqC7w db1).data,
      ∃ g ∈ groupInsights reqC7w.grouping (db1.filter (insightMatches reqC7w)),
        g.status = "active" ∧
        row = projectGroup reqC7w.grouping reqC7w.columns g) ∧
    (getPerformance reqC7w db1).data = [[("status", Value.str "active")]] :=
  ⟨rfl,
    rfl,
    (status_filter_amended reqC7w db1 "active" rfl).1 (Or.inl rfl),
    by decide⟩

end AdPerf

namespace AdPerf

attribute [local semireducible] Rat.add Rat.mul Rat.inv Rat.sub

/-- A column that contributes a value is one of the known identifiers,
and at campaign grouping it is never one of the ad-level columns. -/
theorem projectColumn_known (grouping : Grouping) (g : PerfGroup)
    (totals : RawTotals) (kpis : DailyKPI) (col : String) (v : Value)
    (h : projectColumn grouping g totals kpis col = some v) :
    col ∈ knownColumns ∧ (grouping = .campaign → col ∉ adOnlyColumns) := by
  rw [projectColumn] at h
  simp only [beq_iff_eq] at h
  by_cases h1 : col = "campaign_name"
  · subst h1
    exact ⟨by decide, fun _ => by decide⟩
  rw [if_neg h1] at h
  by_cases h2 : col = "campaign_objective"
  · subst h2
    exact ⟨by decide, fun _ => by decide⟩
  rw [if_neg h2] at h
  by_cases h3 : col = "status"
  · subst h3
    exact ⟨by decide, fun _ => by decide⟩
  rw [if_neg h3] at h
  by_cases h4 : col = "ad_name"
  · subst h4
    refine ⟨by decide, fun hg => ?_⟩
    rw [hg] at h
    simp at h
  rw [if_neg h4] at h
  by_cases h5 : col = "creative_type"
  · subst h5
    refine ⟨by decide, fun hg => ?_⟩
    rw [hg] at h
    simp at h
  rw [if_neg h5] at h
  by_cases h6 : col = "thumbnail_url"
  · subst h6
    refine ⟨by decide, fun hg => ?_⟩
    rw [hg] at h
    simp at h
  rw [if_neg h6] at h
  by_cases h7 : col = "impressions"
  · subst h7
    exact ⟨by decide, fun _ => by decide⟩
  rw [if_neg h7] at h
  by_cases h8 : col = "clicks"
  · subst h8
    exact ⟨by decide, fun _ => by decide⟩
  rw [if_neg h8] at h
  by_cases h9 : col = "spend"
  · subst h9
    exact ⟨by decide, fun _ => by decide⟩
  rw [if_neg h9] at h
  by_cases h10 : col = "conversions"
  · subst h10
    exact ⟨by decide, fun _ => by decide⟩
  rw [if_neg h10] at h
  by_cases h11 : col = "reach"
  · subst h11
    exact ⟨by decide, fun _ => by decide⟩
  rw [if_neg h11] at h
  by_cases h12 : col = "video_views"
  · subst h12
    exact ⟨by decide, fun _ => by decide⟩
  rw [if_neg h12] at h
  by_cases h13 : col = "leads"
  · subst h13
    exact ⟨by decide, fun _ => by decide⟩
  rw [if_neg h13] at h
  by_cases h14 : col = "conversion_value"
  · subst h14
    exact ⟨by decide, fun _ => by decide⟩
  rw [if_neg h14] at h
  by_cases h15 : col = "cpm"
  · subst h15
    exact ⟨by decide, fun _ => by decide⟩
  rw [if_neg h15] at h
  by_cases h16 : col = "cpr"
  · subst h16
    exact ⟨by decide, fun _ => by decide⟩
  rw [if_neg h16] at h
  by_cases h17 : col = "ctr"
  · subst h17
    exact ⟨by decide, fun _ => by decide⟩
  rw [if_neg h17] at h
  by_cases h18 : col = "cpc"
  · subst h18
    exact ⟨by decide, fun _ => by decide⟩
  rw [if_neg h18] at h
  by_cases h19 : col = "view_rate"
  · subst h19
    exact ⟨by decide, fun _ => by decide⟩
  rw [if_neg h19] at h
  by_cases h20 : col = "cpv"
  · subst h20
    exact ⟨by decide, fun _ => by decide⟩
  rw [if_neg h20] at h
  by_cases h21 : col = "cpl"
  · subst h21
    exact ⟨by decide, fun _ => by decide⟩
  rw [if_neg h21] at h
  by_cases h22 : col = "lead_conv_rate"
  · subst h22
    exact ⟨by decide, fun _ => by decide⟩
  rw [if_neg h22] at h
  by_cases h23 : col = "roas"
  · subst h23
    exact ⟨by decide, fun _ => by decide⟩
  rw [if_neg h23] at h
  by_cases h24 : col = "cpa"
  · subst h24
    exact ⟨by decide, fun _ => by decide⟩
  rw [if_neg h24] at h
  exact Option.noConfusion h

/-- Every field of a projected row is a requested, known column; at
campaign grouping none of the ad-level columns appear. -/
theorem projectGroup_keys (grouping : Grouping) (columns : List String)
    (g : PerfGroup) :
    ∀ kv ∈ projectGroup grouping columns g,
      kv.1 ∈ columns ∧ kv.1 ∈ knownColumns ∧
      (grouping = .campaign → kv.1 ∉ adOnlyColumns) := by
  intro kv hkv
  rw [projectGroup] at hkv
  obtain ⟨col, hcol, hv⟩ := List.mem_filterMap.mp hkv
  obtain ⟨v, hsome, hkv'⟩ := Option.map_eq_some'.mp hv
  obtain ⟨hknown, had⟩ := projectColumn_known grouping g _ _ col v hsome
  rw [← hkv']
  exact ⟨hcol, hknown, had⟩

/-- C10: every row of a performance response carries only keys from the
requested column list intersected with the known column universe — an
unknown identifier contributes no field — and at campaign grouping the
ad-level columns `ad_name`, `creative_type`, `thumbnail_url` are omitted
even if requested. -/
theorem projection_columns (req : PerformanceRequest)
    (db : List JoinedInsight) :
    ∀ row ∈ (getPerformance req db).data, ∀ kv ∈ row,
      kv.1 ∈ req.columns ∧ kv.1 ∈ knownColumns ∧
      (req.grouping = .campaign → kv.1 ∉ adOnlyColumns) := by
  intro row hrow kv hkv
  obtain ⟨g, -, rfl⟩ := mem_data_exists_group req db row hrow
  exact projectGroup_keys req.grouping req.columns g kv hkv

/-- Witness for C10: requesting `["status", "bogus", "ad_name"]` at
campaign grouping returns rows carrying only the `status` field. -/
theorem projection_columns_witness :
    (getPerformance reqC10 db1).data = [[("status", Value.str "active")]] ∧
    [("status", Value.str "active")] ∈ (getPerformance reqC10 db1).data ∧
    (∀ kv ∈ [("status", Value.str "active")],
      kv.1 ∈ reqC10.columns ∧ kv.1 ∈ knownColumns ∧
      (reqC10.grouping = .campaign → kv.1 ∉ adOnlyColumns)) :=
  ⟨by decide, by decide,
    fun kv hkv => projection_columns reqC10 db1 _ (by decide) kv hkv⟩

end AdPerf

namespace AdPerf

attribute [local semireducible] Rat.add Rat.mul Rat.inv Rat.sub

/-- `Math.ceil(n / ps)` as computed by the embedding, `(n + ps - 1) / ps`
on `ℕ`, is the mathematical ceiling of the exact quotient. -/
theorem totalPages_eq_ceil (n ps : Nat) (hps : 0 < ps) :
    (((n + ps - 1) / ps : Nat) : ℤ) = ⌈(n : ℚ) / (ps : ℚ)⌉ := by
  set q := (n + ps - 1) / ps with hq
  have hdm := Nat.div_add_mod (n + ps - 1) ps
  rw [← hq] at hdm
  have hrlt : (n + ps - 1) % ps < ps := Nat.mod_lt _ hps
  have hub : n ≤ ps * q := by omega
  have hlb : ps * q < n + ps := by omega
  have hps' : (0:ℚ) < (ps:ℚ) := by exact_mod_cast hps
  rw [eq_comm, Int.ceil_eq_iff]
  constructor
  · rw [sub_lt_iff_lt_add]
    have h2 : (ps:ℚ) * (q:ℚ) < (n:ℚ) + (ps:ℚ) := by exact_mod_cast hlb
    rw [div_add' _ _ _ (ne_of_gt hps'), lt_div_iff₀ hps']
    push_cast
    nlinarith [h2]
  · rw [div_le_iff₀ hps']
    have h2 : (n:ℚ) ≤ (ps:ℚ) * (q:ℚ) := by exact_mod_cast hub
    push_cast
    nlinarith [h2]

/-- Inserting into a sorted list keeps it sorted, given totality and
transitivity of the relation on the elements involved. -/
theorem pairwise_insertRow {α : Type} (le : α → α → Bool) (x : α)
    (l : List α) (hl : l.Pairwise fun a b => le a b = true)
    (htot : ∀ b ∈ l, le x b = true ∨ le b x = true)
    (htr : ∀ b c, b ∈ l → c ∈ l → le x b = true → le b c = true →
      le x c = true) :
    (insertRow le x l).Pairwise fun a b => le a b = true := by
  induction l with
  | nil => simp [insertRow]
  | cons y ys ih =>
    rw [insertRow]
    rw [List.pairwise_cons] at hl
    obtain ⟨hy, hys⟩ := hl
    by_cases h : le y x = true
    · rw [if_pos h, List.pairwise_cons]
      constructor
      · intro z hz
        rcases (mem_insertRow le x ys z).mp hz with rfl | hz'
        · exact h
        · exact hy z hz'
      · exact ih hys (fun b hb => htot b (List.mem_cons_of_mem _ hb))
          (fun b c hb hc => htr b c (List.mem_cons_of_mem _ hb)
            (List.mem_cons_of_mem _ hc))
    · rw [if_neg h, List.pairwise_cons]
      have hxy : le x y = true := by
        rcases htot y (List.mem_cons_self _ _) with h' | h'
        · exact h'
        · exact absurd h' h
      constructor
      · intro z hz
        rcases List.mem_cons.mp hz with rfl | hz'
        · exact hxy
        · exact htr y z (List.mem_cons_self _ _) (List.mem_cons_of_mem _ hz')
            hxy (hy z hz')
      · rw [List.pairwise_cons]
        exact ⟨hy, hys⟩

/-- The sort step produces a list sorted by the comparator relation, given
totality and transitivity on the sorted elements. -/
theorem stableSort_pairwise {α : Type} (le : α → α → Bool) (l : List α)
    (htot : ∀ a ∈ l, ∀ b ∈ l, le a b = true ∨ le b a = true)
    (htr : ∀ a b c, a ∈ l → b ∈ l → c ∈ l → le a b = true → le b c = true →
      le a c = true) :
    (stableSort le l).Pairwise fun a b => le a b = true := by
  suffices h : ∀ (rem acc : List α), (∀ a ∈ rem, a ∈ l) → (∀ a ∈ acc, a ∈ l) →
      acc.Pairwise (fun a b => le a b = true) →
      (rem.foldl (fun acc x => insertRow le x acc) acc).Pairwise
        fun a b => le a b = true by
    exact h l [] (fun a ha => ha) (by simp) (by simp)
  intro rem
  induction rem with
  | nil =>
    intro acc _ _ hp
    exact hp
  | cons x rs ih =>
    intro acc hrem hacc hp
    refine ih (insertRow le x acc)
      (fun a ha => hrem a (List.mem_cons_of_mem _ ha)) ?_ ?_
    · intro a ha
      rcases (mem_insertRow le x acc a).mp ha with rfl | ha'
      · exact hrem a (List.mem_cons_self _ _)
      · exact hacc a ha'
    · refine pairwise_insertRow le x acc hp ?_ ?_
      · intro b hb
        exact htot x (hrem x (List.mem_cons_self _ _)) b (hacc b hb)
      · intro b c hb hc
        exact htr x b c (hrem x (List.mem_cons_self _ _)) (hacc b hb)
          (hacc c hc)

/-- C8: the response page is the slice of the sorted row list from index
`(page − 1)·pageSize` to `page·pageSize`; `meta.totalRows` is the number
of grouped rows, `meta.page`/`meta.pageSize` echo the request,
`meta.totalPages` is the ceiling of `totalRows / pageSize`; and whenever
a sort on a numeric-valued field is requested, the sorted row list is
ordered by the comparator. -/
theorem pagination_sort_meta (req : PerformanceRequest)
    (db : List JoinedInsight) (hpage : 1 ≤ req.pagination.page)
    (hps : 0 < req.pagination.pageSize) :
    (getPerformance req db).data
      = jsSlice ((req.pagination.page - 1) * req.pagination.pageSize)
          (req.pagination.page * req.pagination.pageSize)
          (sortedResultsOf req db) ∧
    (getPerformance req db).meta.totalRows = (resultsOf req db).length ∧
    (getPerformance req db).meta.page = req.pagination.page ∧
    (getPerformance req db).meta.pageSize = req.pagination.pageSize ∧
    ((getPerformance req db).meta.totalPages : ℤ)
      = ⌈((resultsOf req db).length : ℚ) / (req.pagination.pageSize : ℚ)⌉ ∧
    (∀ s, req.sorting = some s →
      (∀ row ∈ resultsOf req db, ∃ q, Row.valueOf row s.field = Value.num q) →
      (sortedResultsOf req db).Pairwise
        fun a b => rowCompareLe s a b = true) := by
  have harith : (req.pagination.page - 1) * req.pagination.pageSize
      + req.pagination.pageSize
      = req.pagination.page * req.pagination.pageSize := by
    obtain ⟨p', hp⟩ : ∃ p', req.pagination.page = p' + 1 :=
      ⟨req.pagination.page - 1, by omega⟩
    rw [hp]
    simp [Nat.succ_mul]
  refine ⟨?_, ?_, rfl, rfl, ?_, ?_⟩
  · rw [getPerformance]
    dsimp only
    rw [harith]
  · rw [getPerformance]
    dsimp only
    exact length_applySorting req.sorting _
  · rw [getPerformance]
    dsimp only
    rw [sortedResultsOf, length_applySorting]
    exact totalPages_eq_ceil _ _ hps
  · intro s hs hnum
    have hsorted : sortedResultsOf req db
        = stableSort (rowCompareLe s) (resultsOf req db) := by
      rw [sortedResultsOf, hs]
      rfl
    rw [hsorted]
    apply stableSort_pairwise
    · intro a ha b hb
      obtain ⟨qa, hqa⟩ := hnum a ha
      obtain ⟨qb, hqb⟩ := hnum b hb
      simp only [rowCompareLe, hqa, hqb]
      cases s.direction <;> simp [decide_eq_true_eq, toNumber] <;>
        exact le_total _ _
    · intro a b c ha hb hc hab hbc
      obtain ⟨qa, hqa⟩ := hnum a ha
      obtain ⟨qb, hqb⟩ := hnum b hb
      obtain ⟨qc, hqc⟩ := hnum c hc
      simp only [rowCompareLe, hqa, hqb, hqc] at hab hbc ⊢
      cases hdir : s.direction <;>
        rw [hdir] at hab hbc <;>
        simp only [decide_eq_true_eq, toNumber] at hab hbc ⊢
      · exact le_trans hab hbc
      · exact le_trans hbc hab

end AdPerf

namespace AdPerf

attribute [local semireducible] Rat.add Rat.mul Rat.inv Rat.sub

/-- Witness for C8: 25 grouped rows, `pageSize = 10`, sorted descending by
spend — page 2 holds the rows ranked 11–20 (spends 14 down to 5),
`meta.totalRows = 25` and `meta.totalPages = 3`. -/
theorem pagination_sort_meta_witness :
    1 ≤ req25.pagination.page ∧ 0 < req25.pagination.pageSize ∧
    (getPerformance req25 db25).data
      = jsSlice 10 20 (sortedResultsOf req25 db25) ∧
    (getPerformance req25 db25).meta.totalRows = 25 ∧
    (getPerformance req25 db25).meta.totalPages = 3 ∧
    (getPerformance req25 db25).data
      = [[("spend", Value.num 14)], [("spend", Value.num 13)],
         [("spend", Value.num 12)], [("spend", Value.num 11)],
         [("spend", Value.num 10)], [("spend", Value.num 9)],
         [("spend", Value.num 8)], [("spend", Value.num 7)],
         [("spend", Value.num 6)], [("spend", Value.num 5)]] := by
  have h := pagination_sort_meta req25 db25 (by decide) (by decide)
  refine ⟨by decide, by decide, ?_, by decide, by decide, by decide⟩
  simpa using h.1

end AdPerf
